import Mathlib

/-!
Shallow embedding of the robotframework-ibmmq keyword library
(src/MQLibrary/library.py and src/IBMMQLibrary/exceptions.py).

The native `ibmmq` binding is external: its behaviour at each call site is
supplied by an explicit outcome (for a single call) or an outcome oracle
(for the per-message `get` loops).  Every keyword is embedded as a pure
function returning the Python-level result (`Except PyError α`), the final
per-alias connection mapping, the trace of calls made into the native
binding, and the list of logged messages.
-/

/-! ### IBM MQ constants (values of the `ibmmq.CMQC` / `CMQXC` fields used) -/

def MQRC_Q_MGR_NAME_ERROR : Nat := 2058
def MQRC_HOST_NOT_AVAILABLE : Nat := 2538
def MQRC_UNKNOWN_CHANNEL_NAME : Nat := 2540
def MQRC_SECURITY_ERROR : Nat := 2063
def MQRC_NO_MSG_AVAILABLE : Nat := 2033
def MQGMO_WAIT : Nat := 1
def MQGMO_NO_WAIT : Nat := 0
def MQGMO_CONVERT : Nat := 16384
def MQGMO_BROWSE_FIRST : Nat := 16
def MQGMO_BROWSE_NEXT : Nat := 32
def MQOO_BROWSE : Nat := 8
def MQOO_INPUT_AS_Q_DEF : Nat := 1

/-! ### Python-level exceptions raised by the library code -/

/-- Exceptions that can escape a keyword of the library.
`valueError` carries the message string of a `ValueError(str)`;
`valueErrorWrap` is `ValueError(mqerror)` (the `ValueError` raised by
`MQMIError_handling`, wrapping the original `ibmmq.MQMIError`);
`mqmi` is an uncaught/re-raised `ibmmq.MQMIError` with its reason code;
`assertionError` an `AssertionError(str)`; `otherError` any other
exception coming out of the native binding. -/
inductive PyError where
  | valueError (msg : String)
  | valueErrorWrap (reason : Nat)
  | mqmi (reason : Nat)
  | assertionError (msg : String)
  | otherError (msg : String)
deriving DecidableEq, Repr

/-! ### Native-binding call traces and outcome oracles -/

/-- One call into the native `ibmmq` binding.  `openQueue oo` is the
`ibmmq.Queue(qmgr, queue, ...)` constructor with its open options
(`none` when the two-argument form is used), `getCall g` is
`queue_obj.get(None, md, gmo)` with the `gmo.Options` value `g`. -/
inductive NativeCall where
  | connectCall
  | openQueue (openOptions : Option Nat)
  | putCall
  | getCall (gmoOptions : Nat)
  | closeCall
  | disconnectCall
deriving DecidableEq, Repr

/-- Outcome of a single native call that returns no data. -/
inductive NatOutcome where
  | ok
  | mqmiError (reason : Nat)
  | otherError (msg : String)
deriving DecidableEq, Repr

/-- Outcome of `connect_tcp_client`: a fresh queue-manager handle, an
`MQMIError` with a reason code, or some other exception. -/
inductive ConnectOutcome where
  | ok (handle : Nat)
  | mqmiError (reason : Nat)
  | otherError (msg : String)
deriving DecidableEq, Repr

/-- Outcome of one native `get`: message bytes, or an `MQMIError`. -/
inductive GetOutcome where
  | msg (bytes : List Nat)
  | err (reason : Nat)
deriving DecidableEq, Repr

/-- The oracle describing a queue that currently holds exactly the
messages `msgs`, served in order: the n-th destructive or browsing `get`
returns the n-th message, and every later `get` raises
`MQRC_NO_MSG_AVAILABLE`. -/
def queueOracle (msgs : List (List Nat)) : Nat → GetOutcome :=
  fun n =>
    match msgs.drop n with
    | [] => .err MQRC_NO_MSG_AVAILABLE
    | bs :: _ => .msg bs

/-! ### Library state -/

/-- `self.connections`: the alias-to-connection dict, as an association
list from alias to queue-manager handle. -/
structure MQState where
  connections : List (String × Nat)
deriving DecidableEq, Repr

/-- Dict lookup (`self.connections[a]` / `a in self.connections`). -/
def alookup (l : List (String × Nat)) (a : String) : Option Nat :=
  match l with
  | [] => none
  | (k, v) :: rest => if k = a then some v else alookup rest a

/-- Dict deletion (`del self.connections[a]`). -/
def removeAlias (l : List (String × Nat)) (a : String) : List (String × Nat) :=
  l.filter (fun p => !(p.1 == a))

/-- The value a keyword invocation produces: the Python result or the
exception that escapes, the final connection mapping, the trace of native
calls made, and the messages logged. -/
structure KwResult (α : Type) where
  result : Except PyError α
  state : MQState
  trace : List NativeCall
  log : List String
deriving Repr

/-! ### Message decoding (`message.decode("utf-8")` with ISO-8859-1 fallback) -/

/-- Is `b` a UTF-8 continuation byte (`0x80 ≤ b < 0xC0`)? -/
def isCont (b : Nat) : Bool := 128 ≤ b && b < 192

/-- Strict UTF-8 decoding of a byte list, as Python `bytes.decode("utf-8")`:
`none` exactly when Python raises `UnicodeDecodeError` (invalid lead or
continuation bytes, truncated or overlong sequences, surrogates,
code points above U+10FFFF). -/
def utf8Decode : List Nat → Option (List Char)
  | [] => some []
  | b :: rest =>
    if b < 128 then
      (utf8Decode rest).map (fun cs => Char.ofNat b :: cs)
    else if b < 194 then
      none
    else if b < 224 then
      match rest with
      | b1 :: rest2 =>
        if isCont b1 then
          (utf8Decode rest2).map (fun cs => Char.ofNat ((b - 192) * 64 + (b1 - 128)) :: cs)
        else none
      | [] => none
    else if b < 240 then
      match rest with
      | b1 :: b2 :: rest2 =>
        if isCont b1 && isCont b2 then
          let cp := (b - 224) * 4096 + (b1 - 128) * 64 + (b2 - 128)
          if cp < 2048 then none
          else if 55296 ≤ cp && cp < 57344 then none
          else (utf8Decode rest2).map (fun cs => Char.ofNat cp :: cs)
        else none
      | _ => none
    else if b < 245 then
      match rest with
      | b1 :: b2 :: b3 :: rest2 =>
        if isCont b1 && isCont b2 && isCont b3 then
          let cp := (b - 240) * 262144 + (b1 - 128) * 4096 + (b2 - 128) * 64 + (b3 - 128)
          if cp < 65536 then none
          else if 1114111 < cp then none
          else (utf8Decode rest2).map (fun cs => Char.ofNat cp :: cs)
        else none
      | _ => none
    else none

/-- ISO-8859-1 decoding: total, each byte maps to the code point of the
same value (`bytes.decode("iso-8859-1")`, which never raises). -/
def latin1Decode (bs : List Nat) : List Char :=
  bs.map (fun b => Char.ofNat (b % 256))

/-- The decoding step applied to every received message:
`message.decode("utf-8")`, falling back to `message.decode("iso-8859-1")`
on `UnicodeDecodeError`. -/
def decodeMessage (bs : List Nat) : List Char :=
  match utf8Decode bs with
  | some cs => cs
  | none => latin1Decode bs

/-! ### exceptions.py: MQMIError_handling -/

/-- `MQMIError_handling(mqerror, **manager_settings)` from
src/IBMMQLibrary/exceptions.py: returns the exception it raises together
with the message it logs first.  The four matched reason codes raise
`ValueError(mqerror)` after logging a specific human-readable message;
every other reason re-raises the original `MQMIError` (`raise` with no
argument) after logging a generic message. -/
def MQMIError_handling (reason : Nat) (mqmanager mqhost : String) (mqport : Nat)
    (mqchannel : String) : PyError × String :=
  if reason = MQRC_Q_MGR_NAME_ERROR then
    (.valueErrorWrap reason,
      s!"Queue Manager {mqmanager} does not exist or is unavailable.")
  else if reason = MQRC_HOST_NOT_AVAILABLE then
    (.valueErrorWrap reason,
      s!"Cannot connect to MQ host {mqhost}:{mqport}. Host not available or refusing connection.")
  else if reason = MQRC_UNKNOWN_CHANNEL_NAME then
    (.valueErrorWrap reason,
      s!"Channel {mqchannel} is unknown or not configured correctly on the MQ server.")
  else if reason = MQRC_SECURITY_ERROR then
    (.valueErrorWrap reason,
      s!"Authentication failed. Check username and password for queue manager {mqmanager}.")
  else
    (.mqmi reason,
      s!"MQ connection failed with reason code {reason}")

/-! ### library.py: Connect MQ -/

/-- `connect_mq` (keyword `Connect MQ`).  Checks the alias, makes a single
`connect_tcp_client` attempt whose outcome is `outcome`, stores the new
connection under the alias on success, and routes an `MQMIError` through
`MQMIError_handling`; any other exception is logged and re-raised. -/
def connect_mq (st : MQState) (queue_manager hostname : String) (port : Nat)
    (channel : String) (username password : Option String) (aliasName : String)
    (outcome : ConnectOutcome) : KwResult Unit :=
  if (alookup st.connections aliasName).isSome then
    { result := .error (.valueError s!"Alias \x27{aliasName}\x27 is already connected.")
      state := st, trace := [], log := [] }
  else
    match outcome with
    | .ok handle =>
      { result := .ok ()
        state := ⟨st.connections ++ [(aliasName, handle)]⟩
        trace := [.connectCall]
        log := [s!"Connected to MQ with alias \x27{aliasName}\x27."] }
    | .mqmiError reason =>
      let eh := MQMIError_handling reason queue_manager hostname port channel
      { result := .error eh.1, state := st, trace := [.connectCall], log := [eh.2] }
    | .otherError msg =>
      { result := .error (.otherError msg), state := st, trace := [.connectCall]
        log := [s!"Failed to connect to MQ: {msg}"] }

/-! ### library.py: _get_qmgr -/

/-- `_get_qmgr`: raises `ValueError` when the alias has no stored
connection, else returns it. -/
def _get_qmgr (st : MQState) (aliasName : String) : Except PyError Nat :=
  match alookup st.connections aliasName with
  | none => .error (.valueError "No valid MQ alias provided or no default connection available.")
  | some q => .ok q

/-! ### library.py: Put MQ Message -/

/-- `put_message` (keyword `Put MQ Message`): resolve the alias, open the
queue, put the UTF-8 encoded message, and close the queue in the `finally`
block whenever it was opened (`queue_obj` is only non-`None` after a
successful open). -/
def put_message (st : MQState) (queue message : String) (ccsid : Nat) (aliasName : String)
    (openOut putOut : NatOutcome) : KwResult Unit :=
  match _get_qmgr st aliasName with
  | .error e => { result := .error e, state := st, trace := [], log := [] }
  | .ok _ =>
    match openOut with
    | .mqmiError r =>
      { result := .error (.mqmi r), state := st, trace := [.openQueue none], log := [] }
    | .otherError m =>
      { result := .error (.otherError m), state := st, trace := [.openQueue none], log := [] }
    | .ok =>
      match putOut with
      | .mqmiError r =>
        { result := .error (.mqmi r), state := st
          trace := [.openQueue none, .putCall, .closeCall], log := [] }
      | .otherError m =>
        { result := .error (.otherError m), state := st
          trace := [.openQueue none, .putCall, .closeCall], log := [] }
      | .ok =>
        { result := .ok (), state := st
          trace := [.openQueue none, .putCall, .closeCall]
          log := [s!"Message put on queue \x27{queue}\x27 via alias \x27{aliasName}\x27."] }

/-! ### library.py: Get MQ Messages -/

/-- How the per-message loop of `get_messages` / `browse_messages` ends:
all requested iterations completed, the loop `break` on
`MQRC_NO_MSG_AVAILABLE`, or an `MQMIError` was re-raised. -/
inductive LoopExit where
  | done
  | broke
  | raised (reason : Nat)
deriving DecidableEq, Repr

/-- The `for _ in range(message_amount)` loop body of `get_messages`:
each iteration performs one native `get` with options `gmoOpts`
(the `gmo` is built once, before the loop), decodes and appends the
message, `break`s on `MQRC_NO_MSG_AVAILABLE`, and re-raises any other
`MQMIError`.  Returns the accumulated decoded messages, the trace of the
`get` calls made, and how the loop exited. -/
def getLoop (oracle : Nat → GetOutcome) (gmoOpts : Nat) :
    Nat → Nat → List (List Char) → List NativeCall →
    List (List Char) × List NativeCall × LoopExit
  | 0, _, acc, tr => (acc, tr, .done)
  | n + 1, idx, acc, tr =>
    match oracle idx with
    | .msg bs =>
      getLoop oracle gmoOpts n (idx + 1) (acc ++ [decodeMessage bs]) (tr ++ [.getCall gmoOpts])
    | .err r =>
      if r = MQRC_NO_MSG_AVAILABLE then (acc, tr ++ [.getCall gmoOpts], .broke)
      else (acc, tr ++ [.getCall gmoOpts], .raised r)

/-- The message of the `AssertionError` raised by `get_messages` when it
retrieved fewer messages than requested. -/
def expectedMsg (wanted got : Nat) : String :=
  s!"Expected {wanted} message(s), but received {got}."

/-- The `gmo.Options` value built by `get_messages`:
`MQGMO_WAIT | (MQGMO_CONVERT if convert else 0)`. -/
def getGmo (convert : Bool) : Nat :=
  MQGMO_WAIT ||| (if convert then MQGMO_CONVERT else 0)

/-- `get_messages` (keyword `Get MQ Messages`): resolve the alias, open the
queue (default open options), destructively `get` up to `message_amount`
messages, then return them only when exactly `message_amount` were
retrieved, raising `AssertionError` otherwise; the queue is closed in the
`finally` block whenever it was opened. -/
def get_messages (st : MQState) (queue : String) (message_amount : Nat) (convert : Bool)
    (timeout_ms : Nat) (aliasName : String) (openOut : NatOutcome)
    (oracle : Nat → GetOutcome) : KwResult (List (List Char)) :=
  match _get_qmgr st aliasName with
  | .error e => { result := .error e, state := st, trace := [], log := [] }
  | .ok _ =>
    match openOut with
    | .mqmiError r =>
      { result := .error (.mqmi r), state := st, trace := [.openQueue none], log := [] }
    | .otherError m =>
      { result := .error (.otherError m), state := st, trace := [.openQueue none], log := [] }
    | .ok =>
      let lr := getLoop oracle (getGmo convert) message_amount 0 [] []
      let fullTrace := [.openQueue none] ++ lr.2.1 ++ [.closeCall]
      match lr.2.2 with
      | .raised r =>
        { result := .error (.mqmi r), state := st, trace := fullTrace, log := [] }
      | _ =>
        if lr.1.length = message_amount then
          { result := .ok lr.1, state := st, trace := fullTrace, log := [] }
        else
          { result := .error (.assertionError (expectedMsg message_amount lr.1.length))
            state := st, trace := fullTrace, log := [] }

/-! ### library.py: Browse MQ Messages -/

/-- The `gmo.Options` value built inside iteration `i` of
`browse_messages`: the wait/convert options, or-ed with
`MQGMO_BROWSE_FIRST` on the first iteration and `MQGMO_BROWSE_NEXT`
afterwards. -/
def browseGmo (convert : Bool) (i : Nat) : Nat :=
  (MQGMO_WAIT ||| (if convert then MQGMO_CONVERT else 0)) |||
    (if i = 0 then MQGMO_BROWSE_FIRST else MQGMO_BROWSE_NEXT)

/-- The `for i in range(max_messages)` loop body of `browse_messages`:
one native `get` per iteration with the iteration-dependent browse
options, decode and append, `break` on `MQRC_NO_MSG_AVAILABLE`, re-raise
any other `MQMIError`. -/
def browseLoop (oracle : Nat → GetOutcome) (convert : Bool) :
    Nat → Nat → List (List Char) → List NativeCall →
    List (List Char) × List NativeCall × LoopExit
  | 0, _, acc, tr => (acc, tr, .done)
  | n + 1, i, acc, tr =>
    match oracle i with
    | .msg bs =>
      browseLoop oracle convert n (i + 1) (acc ++ [decodeMessage bs])
        (tr ++ [.getCall (browseGmo convert i)])
    | .err r =>
      if r = MQRC_NO_MSG_AVAILABLE then (acc, tr ++ [.getCall (browseGmo convert i)], .broke)
      else (acc, tr ++ [.getCall (browseGmo convert i)], .raised r)

/-- `browse_messages` (keyword `Browse MQ Messages`): resolve the alias,
open the queue with `MQOO_BROWSE`, browse up to `max_messages` messages
(first get with `MQGMO_BROWSE_FIRST`, subsequent ones with
`MQGMO_BROWSE_NEXT`), and return whatever was browsed; the queue is
closed in the `finally` block whenever it was opened. -/
def browse_messages (st : MQState) (queue : String) (max_messages : Nat)
    (timeout_ms : Nat) (convert : Bool) (aliasName : String) (openOut : NatOutcome)
    (oracle : Nat → GetOutcome) : KwResult (List (List Char)) :=
  match _get_qmgr st aliasName with
  | .error e => { result := .error e, state := st, trace := [], log := [] }
  | .ok _ =>
    match openOut with
    | .mqmiError r =>
      { result := .error (.mqmi r), state := st
        trace := [.openQueue (some MQOO_BROWSE)], log := [] }
    | .otherError m =>
      { result := .error (.otherError m), state := st
        trace := [.openQueue (some MQOO_BROWSE)], log := [] }
    | .ok =>
      let lr := browseLoop oracle convert max_messages 0 [] []
      let fullTrace := [.openQueue (some MQOO_BROWSE)] ++ lr.2.1 ++ [.closeCall]
      match lr.2.2 with
      | .raised r =>
        { result := .error (.mqmi r), state := st, trace := fullTrace, log := [] }
      | _ =>
        { result := .ok lr.1, state := st, trace := fullTrace, log := [] }

/-! ### library.py: Clear MQ Queue -/

/-- The `while True` loop of `clear_queue`: one native no-wait `get` per
iteration, counting cleared messages, `break` on `MQRC_NO_MSG_AVAILABLE`,
re-raising any other `MQMIError`.  The loop has no bound in the source,
so the embedding carries `fuel`; `none` means the fuel ran out before the
loop exited (the Python loop is still running).  On exit it returns the
cleared count, the next oracle index, the `get`-call trace, and the
reason re-raised (if any). -/
def clearLoop (oracle : Nat → GetOutcome) :
    Nat → Nat → Nat → List NativeCall →
    Option (Nat × Nat × List NativeCall × Option Nat)
  | 0, _, _, _ => none
  | fuel + 1, idx, cnt, tr =>
    match oracle idx with
    | .msg _ => clearLoop oracle fuel (idx + 1) (cnt + 1) (tr ++ [.getCall MQGMO_NO_WAIT])
    | .err r =>
      if r = MQRC_NO_MSG_AVAILABLE then some (cnt, idx + 1, tr ++ [.getCall MQGMO_NO_WAIT], none)
      else some (cnt, idx + 1, tr ++ [.getCall MQGMO_NO_WAIT], some r)

/-- `clear_queue` (keyword `Clear MQ Queue`): resolve the alias, open the
queue with `MQOO_INPUT_AS_Q_DEF`, destructively `get` (no wait) until
`MQRC_NO_MSG_AVAILABLE`, then perform one final verification `get`:
`AssertionError` if it still returns a message, success if it raises
`MQRC_NO_MSG_AVAILABLE`, re-raise otherwise.  The queue is closed in the
`finally` block whenever it was opened.  `none` when `fuel` is too small
to drain the loop (the source loop would still be running). -/
def clear_queue (st : MQState) (queue : String) (aliasName : String)
    (openOut : NatOutcome) (oracle : Nat → GetOutcome) (fuel : Nat) :
    Option (KwResult Unit) :=
  match _get_qmgr st aliasName with
  | .error e => some { result := .error e, state := st, trace := [], log := [] }
  | .ok _ =>
    match openOut with
    | .mqmiError r =>
      some { result := .error (.mqmi r), state := st
             trace := [.openQueue (some MQOO_INPUT_AS_Q_DEF)], log := [] }
    | .otherError m =>
      some { result := .error (.otherError m), state := st
             trace := [.openQueue (some MQOO_INPUT_AS_Q_DEF)], log := [] }
    | .ok =>
      match clearLoop oracle fuel 0 0 [] with
      | none => none
      | some (_, idx, tr, some r) =>
        some { result := .error (.mqmi r), state := st
               trace := [.openQueue (some MQOO_INPUT_AS_Q_DEF)] ++ tr ++ [.closeCall]
               log := [] }
      | some (_, idx, tr, none) =>
        let verifyTrace :=
          [.openQueue (some MQOO_INPUT_AS_Q_DEF)] ++ tr ++ [.getCall MQGMO_NO_WAIT, .closeCall]
        match oracle idx with
        | .msg _ =>
          some { result := .error (.assertionError
                   s!"Queue \x27{queue}\x27 still contains messages after clearing.")
                 state := st, trace := verifyTrace, log := [] }
        | .err r =>
          if r = MQRC_NO_MSG_AVAILABLE then
            some { result := .ok (), state := st, trace := verifyTrace, log := [] }
          else
            some { result := .error (.mqmi r), state := st, trace := verifyTrace, log := [] }

/-! ### library.py: Disconnect MQ / Disconnect All MQ Connections -/

/-- `disconnect_mq` (keyword `Disconnect MQ`): does nothing when the alias
is not in the mapping; otherwise calls the native `disconnect`, suppresses
(only logs) any exception it raises, and in the `finally` block always
deletes the alias entry. -/
def disconnect_mq (st : MQState) (aliasName : String) (discOut : NatOutcome) :
    KwResult Unit :=
  if (alookup st.connections aliasName).isSome then
    match discOut with
    | .ok =>
      { result := .ok (), state := ⟨removeAlias st.connections aliasName⟩
        trace := [.disconnectCall]
        log := [s!"Disconnected from MQ alias \x27{aliasName}\x27."] }
    | .mqmiError r =>
      { result := .ok (), state := ⟨removeAlias st.connections aliasName⟩
        trace := [.disconnectCall]
        log := [s!"Error while disconnecting alias \x27{aliasName}\x27: MQMIError {r}"] }
    | .otherError m =>
      { result := .ok (), state := ⟨removeAlias st.connections aliasName⟩
        trace := [.disconnectCall]
        log := [s!"Error while disconnecting alias \x27{aliasName}\x27: {m}"] }
  else
    { result := .ok (), state := st, trace := [], log := [] }

/-- The `for alias in list(self.connections.keys())` loop of
`disconnect_all`, over the snapshot `keys` of the keys taken before the
loop. -/
def disconnectAllGo (outs : String → NatOutcome) :
    List String → MQState → MQState × List NativeCall × List String
  | [], st => (st, [], [])
  | k :: ks, st =>
    let r := disconnect_mq st k (outs k)
    let rest := disconnectAllGo outs ks r.state
    (rest.1, r.trace ++ rest.2.1, r.log ++ rest.2.2)

/-- `disconnect_all` (keyword `Disconnect All MQ Connections`): calls
`disconnect_mq` for every alias in a snapshot of the current keys. -/
def disconnect_all (st : MQState) (outs : String → NatOutcome) : KwResult Unit :=
  let keys := st.connections.map Prod.fst
  let r := disconnectAllGo outs keys st
  { result := .ok (), state := r.1, trace := r.2.1, log := r.2.2 }

/-! ### Helper lemmas -/

theorem alookup_removeAlias (l : List (String × Nat)) (a : String) :
    alookup (removeAlias l a) a = none := by
  induction l with
  | nil => rfl
  | cons p rest ih =>
    obtain ⟨k, v⟩ := p
    by_cases h : k = a
    · simpa [removeAlias, List.filter_cons, h] using ih
    · simp only [removeAlias, List.filter_cons] at *
      simpa [h, alookup] using ih

theorem removeAlias_of_absent (l : List (String × Nat)) (a : String)
    (h : alookup l a = none) : removeAlias l a = l := by
  induction l with
  | nil => rfl
  | cons p rest ih =>
    obtain ⟨k, v⟩ := p
    by_cases hp : k = a
    · simp [alookup, hp] at h
    · simp only [alookup, hp, if_false] at h
      simp only [removeAlias, List.filter_cons] at *
      simp [hp, ih h]

theorem disconnect_mq_state (st : MQState) (a : String) (d : NatOutcome) :
    (disconnect_mq st a d).state.connections = removeAlias st.connections a := by
  unfold disconnect_mq
  by_cases h : (alookup st.connections a).isSome
  · simp only [h, if_true]
    cases d <;> rfl
  · simp only [h, if_false]
    have hnone : alookup st.connections a = none := by
      cases hx : alookup st.connections a with
      | none => rfl
      | some v => simp [hx] at h
    simp [removeAlias_of_absent _ _ hnone]

theorem disconnect_mq_result (st : MQState) (a : String) (d : NatOutcome) :
    (disconnect_mq st a d).result = .ok () := by
  unfold disconnect_mq
  by_cases h : (alookup st.connections a).isSome
  · simp only [h, if_true]; cases d <;> rfl
  · simp [h]

theorem queueOracle_msg (msgs : List (List Nat)) (idx : Nat) (bs : List Nat)
    (rest : List (List Nat)) (h : msgs.drop idx = bs :: rest) :
    queueOracle msgs idx = .msg bs := by
  simp [queueOracle, h]

theorem queueOracle_empty (msgs : List (List Nat)) (idx : Nat)
    (h : msgs.drop idx = []) :
    queueOracle msgs idx = .err MQRC_NO_MSG_AVAILABLE := by
  simp [queueOracle, h]

theorem drop_succ_of_drop_cons (msgs : List (List Nat)) (idx : Nat) (bs : List Nat)
    (rest : List (List Nat)) (h : msgs.drop idx = bs :: rest) :
    msgs.drop (idx + 1) = rest := by
  rw [← List.drop_drop, h]
  rfl

theorem getLoop_full (msgs : List (List Nat)) (g : Nat) :
    ∀ (n idx : Nat) (acc : List (List Char)) (tr : List NativeCall),
      n ≤ (msgs.drop idx).length →
      getLoop (queueOracle msgs) g n idx acc tr =
        (acc ++ ((msgs.drop idx).take n).map decodeMessage,
         tr ++ List.replicate n (.getCall g), .done) := by
  intro n
  induction n with
  | zero => intro idx acc tr _; simp [getLoop]
  | succ n ih =>
    intro idx acc tr h
    cases hseq : msgs.drop idx with
    | nil => rw [hseq] at h; simp at h
    | cons bs rest =>
      rw [hseq] at h
      have hq := queueOracle_msg msgs idx bs rest hseq
      have hdrop := drop_succ_of_drop_cons msgs idx bs rest hseq
      have hrest : n ≤ (msgs.drop (idx + 1)).length := by
        rw [hdrop]; simpa using Nat.le_of_succ_le_succ h
      simp only [getLoop, hq]
      rw [ih (idx + 1) _ _ hrest, hdrop]
      simp [List.replicate_succ, List.take_succ_cons]

theorem getLoop_short (msgs : List (List Nat)) (g : Nat) :
    ∀ (n idx : Nat) (acc : List (List Char)) (tr : List NativeCall),
      (msgs.drop idx).length < n →
      getLoop (queueOracle msgs) g n idx acc tr =
        (acc ++ (msgs.drop idx).map decodeMessage,
         tr ++ List.replicate ((msgs.drop idx).length + 1) (.getCall g), .broke) := by
  intro n
  induction n with
  | zero => intro idx acc tr h; simp at h
  | succ n ih =>
    intro idx acc tr h
    cases hseq : msgs.drop idx with
    | nil =>
      have hq := queueOracle_empty msgs idx hseq
      simp [getLoop, hq, MQRC_NO_MSG_AVAILABLE, List.replicate_succ]
    | cons bs rest =>
      rw [hseq] at h
      have hq := queueOracle_msg msgs idx bs rest hseq
      have hdrop := drop_succ_of_drop_cons msgs idx bs rest hseq
      have hrest : (msgs.drop (idx + 1)).length < n := by
        rw [hdrop]; simpa using Nat.lt_of_succ_lt_succ h
      simp only [getLoop, hq]
      rw [ih (idx + 1) _ _ hrest, hdrop]
      simp [List.replicate_succ]

theorem map_range_succ_shift (f : Nat → NativeCall) (n idx : Nat) :
    (List.range (n + 1)).map (fun j => f (idx + j)) =
      f idx :: (List.range n).map (fun j => f (idx + 1 + j)) := by
  rw [List.range_succ_eq_map, List.map_cons, List.map_map]
  refine congrArg₂ _ (by simp) ?_
  refine List.map_congr_left ?_
  intro j _
  simp only [Function.comp_apply]
  congr 1
  omega

theorem browseLoop_full (msgs : List (List Nat)) (convert : Bool) :
    ∀ (n idx : Nat) (acc : List (List Char)) (tr : List NativeCall),
      n ≤ (msgs.drop idx).length →
      browseLoop (queueOracle msgs) convert n idx acc tr =
        (acc ++ ((msgs.drop idx).take n).map decodeMessage,
         tr ++ (List.range n).map (fun j => .getCall (browseGmo convert (idx + j))),
         .done) := by
  intro n
  induction n with
  | zero => intro idx acc tr _; simp [browseLoop]
  | succ n ih =>
    intro idx acc tr h
    cases hseq : msgs.drop idx with
    | nil => rw [hseq] at h; simp at h
    | cons bs rest =>
      rw [hseq] at h
      have hq := queueOracle_msg msgs idx bs rest hseq
      have hdrop := drop_succ_of_drop_cons msgs idx bs rest hseq
      have hrest : n ≤ (msgs.drop (idx + 1)).length := by
        rw [hdrop]; simpa using Nat.le_of_succ_le_succ h
      simp only [browseLoop, hq]
      rw [ih (idx + 1) _ _ hrest, hdrop,
        map_range_succ_shift (fun j => .getCall (browseGmo convert j)) n idx]
      simp [List.take_succ_cons, List.append_assoc]

theorem browseLoop_short (msgs : List (List Nat)) (convert : Bool) :
    ∀ (n idx : Nat) (acc : List (List Char)) (tr : List NativeCall),
      (msgs.drop idx).length < n →
      browseLoop (queueOracle msgs) convert n idx acc tr =
        (acc ++ (msgs.drop idx).map decodeMessage,
         tr ++ (List.range ((msgs.drop idx).length + 1)).map
           (fun j => .getCall (browseGmo convert (idx + j))),
         .broke) := by
  intro n
  induction n with
  | zero => intro idx acc tr h; simp at h
  | succ n ih =>
    intro idx acc tr h
    cases hseq : msgs.drop idx with
    | nil =>
      have hq := queueOracle_empty msgs idx hseq
      simp [browseLoop, hq, MQRC_NO_MSG_AVAILABLE, List.range_succ_eq_map]
    | cons bs rest =>
      rw [hseq] at h
      have hq := queueOracle_msg msgs idx bs rest hseq
      have hdrop := drop_succ_of_drop_cons msgs idx bs rest hseq
      have hrest : (msgs.drop (idx + 1)).length < n := by
        rw [hdrop]; simpa using Nat.lt_of_succ_lt_succ h
      simp only [browseLoop, hq]
      rw [ih (idx + 1) _ _ hrest, hdrop]
      simp only [List.length_cons]
      rw [map_range_succ_shift (fun j => .getCall (browseGmo convert j)) (rest.length + 1) idx]
      simp [List.append_assoc]

theorem getLoop_sizes (oracle : Nat → GetOutcome) (g : Nat) :
    ∀ (n idx : Nat) (acc : List (List Char)) (tr : List NativeCall),
      (getLoop oracle g n idx acc tr).1.length ≤ acc.length + n ∧
      (getLoop oracle g n idx acc tr).2.1.length ≤ tr.length + n := by
  intro n
  induction n with
  | zero => intro idx acc tr; simp [getLoop]
  | succ n ih =>
    intro idx acc tr
    cases hq : oracle idx with
    | msg bs =>
      have := ih (idx + 1) (acc ++ [decodeMessage bs]) (tr ++ [.getCall g])
      simp only [getLoop, hq]
      constructor
      · calc _ ≤ (acc ++ [decodeMessage bs]).length + n := this.1
          _ ≤ _ := by simp; omega
      · calc _ ≤ (tr ++ [NativeCall.getCall g]).length + n := this.2
          _ ≤ _ := by simp; omega
    | err r =>
      simp only [getLoop, hq]
      by_cases hr : r = MQRC_NO_MSG_AVAILABLE <;> simp [hr] <;> omega

theorem browseLoop_sizes (oracle : Nat → GetOutcome) (convert : Bool) :
    ∀ (n idx : Nat) (acc : List (List Char)) (tr : List NativeCall),
      (browseLoop oracle convert n idx acc tr).1.length ≤ acc.length + n ∧
      (browseLoop oracle convert n idx acc tr).2.1.length ≤ tr.length + n := by
  intro n
  induction n with
  | zero => intro idx acc tr; simp [browseLoop]
  | succ n ih =>
    intro idx acc tr
    cases hq : oracle idx with
    | msg bs =>
      have := ih (idx + 1) (acc ++ [decodeMessage bs])
        (tr ++ [.getCall (browseGmo convert idx)])
      simp only [browseLoop, hq]
      constructor
      · calc _ ≤ (acc ++ [decodeMessage bs]).length + n := this.1
          _ ≤ _ := by simp; omega
      · calc _ ≤ (tr ++ [NativeCall.getCall (browseGmo convert idx)]).length + n := this.2
          _ ≤ _ := by simp; omega
    | err r =>
      simp only [browseLoop, hq]
      by_cases hr : r = MQRC_NO_MSG_AVAILABLE <;> simp [hr] <;> omega

theorem clearLoop_drain (msgs : List (List Nat)) :
    ∀ (fuel idx cnt : Nat) (tr : List NativeCall),
      (msgs.drop idx).length + 1 ≤ fuel →
      clearLoop (queueOracle msgs) fuel idx cnt tr =
        some (cnt + (msgs.drop idx).length, idx + ((msgs.drop idx).length + 1),
          tr ++ List.replicate ((msgs.drop idx).length + 1) (.getCall MQGMO_NO_WAIT),
          none) := by
  intro fuel
  induction fuel with
  | zero => intro idx cnt tr h; simp at h
  | succ fuel ih =>
    intro idx cnt tr h
    cases hseq : msgs.drop idx with
    | nil =>
      have hq := queueOracle_empty msgs idx hseq
      simp [clearLoop, hq, MQRC_NO_MSG_AVAILABLE, List.replicate_succ]
    | cons bs rest =>
      rw [hseq] at h
      have hq := queueOracle_msg msgs idx bs rest hseq
      have hdrop := drop_succ_of_drop_cons msgs idx bs rest hseq
      have hrest : (msgs.drop (idx + 1)).length + 1 ≤ fuel := by
        rw [hdrop]; simp at h ⊢; omega
      simp only [clearLoop, hq]
      rw [ih (idx + 1) _ _ hrest, hdrop]
      simp only [List.length_cons, Option.some.injEq, Prod.mk.injEq]
      refine ⟨by omega, by omega, by simp [List.replicate_succ, List.append_assoc], by simp⟩

/-! ### Claim theorems -/

/-- C1: a failed `Connect MQ` attempt that raises an `MQMIError` is turned
into a `ValueError` (after logging a human-readable message naming the
queue manager, host:port, or channel respectively) exactly when the reason
code is `MQRC_Q_MGR_NAME_ERROR` (2058), `MQRC_HOST_NOT_AVAILABLE` (2538),
`MQRC_UNKNOWN_CHANNEL_NAME` (2540) or `MQRC_SECURITY_ERROR` (2063); every
other reason code re-raises the original `MQMIError` unchanged. -/
theorem connect_mq_error_translation (st : MQState) (qm host : String) (port : Nat)
    (ch : String) (u pw : Option String) (a : String) (r : Nat)
    (hfree : alookup st.connections a = none) :
    ((r = MQRC_Q_MGR_NAME_ERROR ∨ r = MQRC_HOST_NOT_AVAILABLE ∨
        r = MQRC_UNKNOWN_CHANNEL_NAME ∨ r = MQRC_SECURITY_ERROR) →
      (connect_mq st qm host port ch u pw a (.mqmiError r)).result
        = .error (.valueErrorWrap r)) ∧
    (¬(r = MQRC_Q_MGR_NAME_ERROR ∨ r = MQRC_HOST_NOT_AVAILABLE ∨
        r = MQRC_UNKNOWN_CHANNEL_NAME ∨ r = MQRC_SECURITY_ERROR) →
      (connect_mq st qm host port ch u pw a (.mqmiError r)).result
        = .error (.mqmi r)) ∧
    (r = MQRC_Q_MGR_NAME_ERROR →
      (connect_mq st qm host port ch u pw a (.mqmiError r)).log
        = [s!"Queue Manager {qm} does not exist or is unavailable."]) ∧
    (r = MQRC_HOST_NOT_AVAILABLE →
      (connect_mq st qm host port ch u pw a (.mqmiError r)).log
        = [s!"Cannot connect to MQ host {host}:{port}. Host not available or refusing connection."]) ∧
    (r = MQRC_UNKNOWN_CHANNEL_NAME →
      (connect_mq st qm host port ch u pw a (.mqmiError r)).log
        = [s!"Channel {ch} is unknown or not configured correctly on the MQ server."]) ∧
    (r = MQRC_SECURITY_ERROR →
      (connect_mq st qm host port ch u pw a (.mqmiError r)).log
        = [s!"Authentication failed. Check username and password for queue manager {qm}."]) := by
  have hb : (alookup st.connections a).isSome = false := by simp [hfree]
  refine ⟨?_, ?_, ?_, ?_, ?_, ?_⟩
  · rintro (rfl | rfl | rfl | rfl) <;>
      simp [connect_mq, hb, MQMIError_handling, MQRC_Q_MGR_NAME_ERROR,
        MQRC_HOST_NOT_AVAILABLE, MQRC_UNKNOWN_CHANNEL_NAME, MQRC_SECURITY_ERROR]
  · intro hn
    push_neg at hn
    obtain ⟨h1, h2, h3, h4⟩ := hn
    simp [connect_mq, hb, MQMIError_handling, h1, h2, h3, h4]
  · rintro rfl
    simp [connect_mq, hb, MQMIError_handling, MQRC_Q_MGR_NAME_ERROR,
      MQRC_HOST_NOT_AVAILABLE, MQRC_UNKNOWN_CHANNEL_NAME, MQRC_SECURITY_ERROR]
  · rintro rfl
    simp [connect_mq, hb, MQMIError_handling, MQRC_Q_MGR_NAME_ERROR,
      MQRC_HOST_NOT_AVAILABLE, MQRC_UNKNOWN_CHANNEL_NAME, MQRC_SECURITY_ERROR]
  · rintro rfl
    simp [connect_mq, hb, MQMIError_handling, MQRC_Q_MGR_NAME_ERROR,
      MQRC_HOST_NOT_AVAILABLE, MQRC_UNKNOWN_CHANNEL_NAME, MQRC_SECURITY_ERROR]
  · rintro rfl
    simp [connect_mq, hb, MQMIError_handling, MQRC_Q_MGR_NAME_ERROR,
      MQRC_HOST_NOT_AVAILABLE, MQRC_UNKNOWN_CHANNEL_NAME, MQRC_SECURITY_ERROR]

/-- Witness for C1 at a concrete input: the alias is free, reason 2058 is
translated to a `ValueError` with the queue-manager message logged, and
reason 2059 is re-raised unchanged. -/
theorem connect_mq_error_translation_witness :
    alookup (MQState.mk []).connections "default" = none ∧
    (connect_mq ⟨[]⟩ "QM1" "host" 1414 "CH1" none none "default"
        (.mqmiError MQRC_Q_MGR_NAME_ERROR)).result
      = .error (.valueErrorWrap MQRC_Q_MGR_NAME_ERROR) ∧
    (connect_mq ⟨[]⟩ "QM1" "host" 1414 "CH1" none none "default"
        (.mqmiError MQRC_Q_MGR_NAME_ERROR)).log
      = ["Queue Manager QM1 does not exist or is unavailable."] ∧
    (connect_mq ⟨[]⟩ "QM1" "host" 1414 "CH1" none none "default"
        (.mqmiError 2059)).result = .error (.mqmi 2059) := by
  have h1 := connect_mq_error_translation ⟨[]⟩ "QM1" "host" 1414 "CH1" none none
    "default" MQRC_Q_MGR_NAME_ERROR rfl
  have h2 := connect_mq_error_translation ⟨[]⟩ "QM1" "host" 1414 "CH1" none none
    "default" 2059 rfl
  exact ⟨rfl, h1.1 (Or.inl rfl), by simpa using h1.2.2.1 rfl, h2.2.1 (by decide)⟩

/-- C2: over a queue holding the byte-messages `msgs`, a successful
`Get MQ Messages` returns exactly the first `amount` messages and a
successful `Browse MQ Messages` the first `maxm` (or all of them when
fewer are present), each decoded, in the order they were received; each
element is the UTF-8 decoding of the bytes, or the ISO-8859-1 decoding
when the UTF-8 decoding fails, so the decoding step is total. -/
theorem get_browse_decoded_in_order (st : MQState) (q1 q2 : String)
    (amount maxm t1 t2 : Nat) (c1 c2 : Bool) (a : String) (qh : Nat)
    (msgs : List (List Nat))
    (hconn : alookup st.connections a = some qh)
    (hlen : amount ≤ msgs.length) :
    (get_messages st q1 amount c1 t1 a .ok (queueOracle msgs)).result
        = .ok ((msgs.take amount).map decodeMessage) ∧
    (browse_messages st q2 maxm t2 c2 a .ok (queueOracle msgs)).result
        = .ok ((msgs.take maxm).map decodeMessage) ∧
    (∀ bs cs, utf8Decode bs = some cs → decodeMessage bs = cs) ∧
    (∀ bs, utf8Decode bs = none → decodeMessage bs = latin1Decode bs) := by
  have hg : _get_qmgr st a = .ok qh := by simp [_get_qmgr, hconn]
  refine ⟨?_, ?_, ?_, ?_⟩
  · simp only [get_messages, hg]
    rw [getLoop_full msgs (getGmo c1) amount 0 [] [] (by simpa using hlen)]
    simp [List.length_take, Nat.min_eq_left hlen]
  · simp only [browse_messages, hg]
    rcases le_or_lt maxm msgs.length with hm | hm
    · rw [browseLoop_full msgs c2 maxm 0 [] [] (by simpa using hm)]
      simp
    · rw [browseLoop_short msgs c2 maxm 0 [] [] (by simpa using hm)]
      simp [List.take_of_length_le (Nat.le_of_lt hm)]
  · intro bs cs h
    simp [decodeMessage, h]
  · intro bs h
    simp [decodeMessage, h]

/-- Witness for C2 at a concrete input: a connected alias and a queue of
three messages (ASCII, valid two-byte UTF-8, and an invalid UTF-8 byte
that falls back to ISO-8859-1). -/
theorem get_browse_decoded_in_order_witness :
    alookup [("default", 7)] "default" = some 7 ∧
    (2 : Nat) ≤ 3 ∧
    (get_messages ⟨[("default", 7)]⟩ "Q" 2 true 0 "default"
        .ok (queueOracle [[72, 105], [195, 169], [255]])).result
      = .ok [['H', 'i'], [Char.ofNat 233]] ∧
    (browse_messages ⟨[("default", 7)]⟩ "Q" 5 0 true "default"
        .ok (queueOracle [[72, 105], [195, 169], [255]])).result
      = .ok [['H', 'i'], [Char.ofNat 233], [Char.ofNat 255]] := by
  have h := get_browse_decoded_in_order ⟨[("default", 7)]⟩ "Q" "Q" 2 5 0 0 true true
    "default" 7 [[72, 105], [195, 169], [255]] rfl (by decide)
  refine ⟨rfl, by decide, ?_, ?_⟩
  · rw [h.1]; simp only [Except.ok.injEq]; decide
  · rw [h.2.1]; simp only [Except.ok.injEq]; decide

theorem put_message_state (st : MQState) (q m : String) (cc : Nat) (a : String)
    (o1 o2 : NatOutcome) : (put_message st q m cc a o1 o2).state = st := by
  unfold put_message
  rcases hg : _get_qmgr st a with e | v
  · rfl
  · cases o1 <;> cases o2 <;> rfl

theorem get_messages_state (st : MQState) (q : String) (n : Nat) (c : Bool) (t : Nat)
    (a : String) (o : NatOutcome) (oracle : Nat → GetOutcome) :
    (get_messages st q n c t a o oracle).state = st := by
  simp only [get_messages]
  rcases hg : _get_qmgr st a with e | v
  · rfl
  · dsimp only
    cases o
    · rcases hlp : getLoop oracle (getGmo c) n 0 [] [] with ⟨l, tr, ex⟩
      cases ex
      · dsimp only
        split <;> rfl
      · dsimp only
        split <;> rfl
      · rfl
    · rfl
    · rfl

theorem browse_messages_state (st : MQState) (q : String) (n t : Nat) (c : Bool)
    (a : String) (o : NatOutcome) (oracle : Nat → GetOutcome) :
    (browse_messages st q n t c a o oracle).state = st := by
  simp only [browse_messages]
  rcases hg : _get_qmgr st a with e | v
  · rfl
  · dsimp only
    cases o
    · dsimp only
      split <;> rfl
    · rfl
    · rfl

theorem clear_queue_state (st : MQState) (q a : String) (o : NatOutcome)
    (oracle : Nat → GetOutcome) (fuel : Nat) (res : KwResult Unit)
    (h : clear_queue st q a o oracle fuel = some res) : res.state = st := by
  rcases hg : _get_qmgr st a with e | v <;> simp only [clear_queue, hg] at h
  · cases h; rfl
  · cases o
    · rcases hcl : clearLoop oracle fuel 0 0 [] with _ | ⟨cnt, idx, tr, reason⟩ <;>
        rw [hcl] at h <;> dsimp only at h
      · exact Option.noConfusion h
      · cases reason
        · dsimp only at h
          rcases hor : oracle idx with bs | r <;> rw [hor] at h <;> dsimp only at h
          · cases h; rfl
          · split at h <;> cases h <;> rfl
        · cases h; rfl
    · cases h; rfl
    · cases h; rfl

/-- C3: the per-alias state is the single `connections` mapping; only
`Connect MQ` mutates it by adding exactly one entry for its alias
(raising `ValueError` without mutation when the alias is present), only
`Disconnect MQ` mutates it by removing exactly its alias entry, and
`Put`, `Get`, `Browse` and `Clear` leave the mapping untouched. -/
theorem connections_mutation_discipline (st : MQState) :
    (∀ qm host port ch u pw a out, (alookup st.connections a).isSome →
        (connect_mq st qm host port ch u pw a out).result
            = .error (.valueError s!"Alias \x27{a}\x27 is already connected.") ∧
        (connect_mq st qm host port ch u pw a out).state = st) ∧
    (∀ qm host port ch u pw a hd, alookup st.connections a = none →
        (connect_mq st qm host port ch u pw a (.ok hd)).state.connections
            = st.connections ++ [(a, hd)]) ∧
    (∀ a d, (disconnect_mq st a d).state.connections = removeAlias st.connections a) ∧
    (∀ q m cc a o1 o2, (put_message st q m cc a o1 o2).state = st) ∧
    (∀ q n c t a o oracle, (get_messages st q n c t a o oracle).state = st) ∧
    (∀ q n t c a o oracle, (browse_messages st q n t c a o oracle).state = st) ∧
    (∀ q a o oracle fuel res, clear_queue st q a o oracle fuel = some res →
        res.state = st) := by
  refine ⟨?_, ?_, ?_, ?_, ?_, ?_, ?_⟩
  · intro qm host port ch u pw a out hsome
    constructor <;> simp [connect_mq, hsome]
  · intro qm host port ch u pw a hd hnone
    simp [connect_mq, hnone]
  · intro a d
    exact disconnect_mq_state st a d
  · intro q m cc a o1 o2
    exact put_message_state st q m cc a o1 o2
  · intro q n c t a o oracle
    exact get_messages_state st q n c t a o oracle
  · intro q n t c a o oracle
    exact browse_messages_state st q n t c a o oracle
  · intro q a o oracle fuel res h
    exact clear_queue_state st q a o oracle fuel res h

/-- Witness for C3 at concrete inputs: a duplicate connect is rejected
without mutation, a fresh connect adds exactly one entry, disconnect
removes exactly its entry, and a put leaves the mapping unchanged. -/
theorem connections_mutation_discipline_witness :
    (alookup [("default", 5)] "default").isSome = true ∧
    (connect_mq ⟨[("default", 5)]⟩ "QM" "h" 1 "ch" none none "default" (.ok 9)).state
        = ⟨[("default", 5)]⟩ ∧
    alookup [("default", 5)] "other" = none ∧
    (connect_mq ⟨[("default", 5)]⟩ "QM" "h" 1 "ch" none none "other" (.ok 9)).state.connections
        = [("default", 5), ("other", 9)] ∧
    (disconnect_mq ⟨[("default", 5)]⟩ "default" .ok).state.connections = [] ∧
    (put_message ⟨[("default", 5)]⟩ "Q" "m" 1208 "default" .ok .ok).state
        = ⟨[("default", 5)]⟩ := by
  have h := connections_mutation_discipline ⟨[("default", 5)]⟩
  refine ⟨by decide, (h.1 "QM" "h" 1 "ch" none none "default" (.ok 9) (by decide)).2,
    by decide, ?_, ?_, h.2.2.2.1 "Q" "m" 1208 "default" .ok .ok⟩
  · rw [h.2.1 "QM" "h" 1 "ch" none none "other" 9 (by decide)]; rfl
  · rw [h.2.2.1 "default" .ok]; decide

/-- C4: `Connect MQ` makes at most one native connection attempt per
invocation (its native-call trace is empty or a single connect call), and
whenever it raises, the connections mapping is left unchanged. -/
theorem connect_mq_single_attempt_no_mutation_on_failure (st : MQState)
    (qm host : String) (port : Nat) (ch : String) (u pw : Option String)
    (a : String) (out : ConnectOutcome) :
    ((connect_mq st qm host port ch u pw a out).trace = [] ∨
     (connect_mq st qm host port ch u pw a out).trace = [.connectCall]) ∧
    (∀ e, (connect_mq st qm host port ch u pw a out).result = .error e →
        (connect_mq st qm host port ch u pw a out).state = st) := by
  by_cases hsome : (alookup st.connections a).isSome
  · constructor
    · left; simp [connect_mq, hsome]
    · intro e _; simp [connect_mq, hsome]
  · cases out with
    | ok hd =>
      constructor
      · right; simp [connect_mq, hsome]
      · intro e he
        simp [connect_mq, hsome] at he
    | mqmiError r =>
      constructor
      · right; simp [connect_mq, hsome]
      · intro e _; simp [connect_mq, hsome]
    | otherError m =>
      constructor
      · right; simp [connect_mq, hsome]
      · intro e _; simp [connect_mq, hsome]

/-- Witness for C4 at a concrete input: a failing connect makes one
native call and leaves the mapping unchanged. -/
theorem connect_mq_single_attempt_no_mutation_on_failure_witness :
    ((connect_mq ⟨[]⟩ "QM" "h" 1 "ch" none none "default"
        (.mqmiError 2538)).trace = [] ∨
     (connect_mq ⟨[]⟩ "QM" "h" 1 "ch" none none "default"
        (.mqmiError 2538)).trace = [.connectCall]) ∧
    (connect_mq ⟨[]⟩ "QM" "h" 1 "ch" none none "default"
        (.mqmiError 2538)).result = .error (.valueErrorWrap 2538) ∧
    (connect_mq ⟨[]⟩ "QM" "h" 1 "ch" none none "default"
        (.mqmiError 2538)).state = ⟨[]⟩ := by
  have h := connect_mq_single_attempt_no_mutation_on_failure ⟨[]⟩ "QM" "h" 1 "ch"
    none none "default" (.mqmiError 2538)
  exact ⟨h.1, by rfl, h.2 (.valueErrorWrap 2538) (by rfl)⟩

/-- Counterexample to C5 as stated: a successful `Put MQ Message` on a
connected alias makes three native calls (open, put, close), not at most
two. -/
theorem keyword_at_most_two_calls_counterexample :
    ¬ ((put_message ⟨[("default", 0)]⟩ "QUEUE.TEST" "Hello" 1208 "default"
        .ok .ok).trace.length ≤ 2) := by
  decide

/-- C5 amended: per-keyword native-call bounds.  `Connect MQ` and
`Disconnect MQ` make at most two native calls; `Put MQ Message` at most
three (open, put, close); `Get MQ Messages` and `Browse MQ Messages` at
most `n + 2` where `n` is the requested message count; and the number of
calls made by `Clear MQ Queue` is unbounded, growing with the queue
contents. -/
theorem keyword_native_call_bounds (st : MQState) (qm host : String) (port : Nat)
    (ch : String) (u pw : Option String) (a q m : String) (cc n t : Nat)
    (c : Bool) (co : ConnectOutcome) (o1 o2 d : NatOutcome)
    (oracle : Nat → GetOutcome) :
    (connect_mq st qm host port ch u pw a co).trace.length ≤ 2 ∧
    (disconnect_mq st a d).trace.length ≤ 2 ∧
    (put_message st q m cc a o1 o2).trace.length ≤ 3 ∧
    (get_messages st q n c t a o1 oracle).trace.length ≤ n + 2 ∧
    (browse_messages st q n t c a o1 oracle).trace.length ≤ n + 2 ∧
    (∀ N : Nat, ∃ (msgs : List (List Nat)) (fuel : Nat) (res : KwResult Unit),
        clear_queue ⟨[("default", 0)]⟩ q "default" .ok (queueOracle msgs) fuel
            = some res ∧
        N < res.trace.length) := by
  refine ⟨?_, ?_, ?_, ?_, ?_, ?_⟩
  · by_cases hsome : (alookup st.connections a).isSome
    · simp [connect_mq, hsome]
    · cases co <;> simp [connect_mq, hsome]
  · unfold disconnect_mq
    by_cases hsome : (alookup st.connections a).isSome
    · simp only [hsome, if_true]
      cases d <;> simp
    · simp [hsome]
  · unfold put_message
    rcases hg : _get_qmgr st a with e | v
    · simp
    · cases o1 <;> cases o2 <;> simp
  · simp only [get_messages]
    rcases hg : _get_qmgr st a with e | v
    · simp
    · dsimp only
      cases o1
      · have hs := (getLoop_sizes oracle (getGmo c) n 0 [] []).2
        rcases hlp : getLoop oracle (getGmo c) n 0 [] [] with ⟨l, tr, ex⟩
        rw [hlp] at hs
        simp only [List.length_nil, Nat.zero_add] at hs
        cases ex
        · dsimp only
          split <;> simp <;> omega
        · dsimp only
          split <;> simp <;> omega
        · dsimp only
          simp
          omega
      · simp
      · simp
  · simp only [browse_messages]
    rcases hg : _get_qmgr st a with e | v
    · simp
    · dsimp only
      cases o1
      · have hs := (browseLoop_sizes oracle c n 0 [] []).2
        rcases hlp : browseLoop oracle c n 0 [] [] with ⟨l, tr, ex⟩
        rw [hlp] at hs
        simp only [List.length_nil, Nat.zero_add] at hs
        cases ex <;> dsimp only <;> simp <;> omega
      · simp
      · simp
  · intro N
    refine ⟨List.replicate N [65], N + 1, ?_⟩
    have hdr := clearLoop_drain (List.replicate N [65]) (N + 1) 0 0 [] (by simp)
    simp only [List.drop_zero, List.length_replicate, List.nil_append,
      Nat.zero_add] at hdr
    have hg : _get_qmgr (⟨[("default", 0)]⟩ : MQState) "default" = .ok 0 := rfl
    have hq2 : queueOracle (List.replicate N [65]) (N + 1)
        = .err MQRC_NO_MSG_AVAILABLE := by
      apply queueOracle_empty
      simp
    simp only [clear_queue, hg]
    rw [hdr]
    dsimp only
    rw [hq2]
    dsimp only
    rw [if_pos rfl]
    refine ⟨_, rfl, ?_⟩
    simp only [List.length_append, List.length_replicate, List.length_cons,
      List.length_nil]
    omega

/-- C6: for `Put`, `Get`, `Browse` and `Clear` on a connected alias, when
the queue open succeeds the queue is closed on every exit path — normal
return, a re-raised `MQMIError`, or an `AssertionError` — because the
close sits in the `finally` block guarded by `queue_obj` being set. -/
theorem queue_closed_on_every_exit (st : MQState) (q m : String)
    (cc n nb t tb fuel : Nat) (c cb : Bool) (a : String) (qh : Nat)
    (putOut : NatOutcome) (oracle : Nat → GetOutcome)
    (hconn : alookup st.connections a = some qh) :
    NativeCall.closeCall ∈ (put_message st q m cc a .ok putOut).trace ∧
    NativeCall.closeCall ∈ (get_messages st q n c t a .ok oracle).trace ∧
    NativeCall.closeCall ∈ (browse_messages st q nb tb cb a .ok oracle).trace ∧
    (∀ res, clear_queue st q a .ok oracle fuel = some res →
        NativeCall.closeCall ∈ res.trace) := by
  have hg : _get_qmgr st a = .ok qh := by simp [_get_qmgr, hconn]
  refine ⟨?_, ?_, ?_, ?_⟩
  · cases putOut <;> simp [put_message, hg]
  · simp only [get_messages, hg]
    rcases hlp : getLoop oracle (getGmo c) n 0 [] [] with ⟨l, tr, ex⟩
    cases ex
    · dsimp only
      split <;> simp
    · dsimp only
      split <;> simp
    · simp
  · simp only [browse_messages, hg]
    rcases hlp : browseLoop oracle cb nb 0 [] [] with ⟨l, tr, ex⟩
    cases ex <;> simp
  · intro res h
    simp only [clear_queue, hg] at h
    rcases hcl : clearLoop oracle fuel 0 0 [] with _ | ⟨cnt, idx, tr, reason⟩ <;>
      rw [hcl] at h <;> try dsimp only at h
    · exact Option.noConfusion h
    · cases reason
      · try dsimp only at h
        rcases hor : oracle idx with bs | r <;> rw [hor] at h <;> try dsimp only at h
        · cases h; simp
        · split at h <;> cases h <;> simp
      · cases h; simp

/-- Witness for C6 at a concrete input: on a connected alias, a put whose
native put raises, a get that raises mid-loop, a browse, and a clear all
close the queue. -/
theorem queue_closed_on_every_exit_witness :
    alookup [("default", 7)] "default" = some 7 ∧
    NativeCall.closeCall ∈ (put_message ⟨[("default", 7)]⟩ "Q" "m" 1208 "default"
        .ok (.mqmiError 2030)).trace ∧
    NativeCall.closeCall ∈ (get_messages ⟨[("default", 7)]⟩ "Q" 2 true 0 "default"
        .ok (queueOracle [])).trace ∧
    NativeCall.closeCall ∈ (browse_messages ⟨[("default", 7)]⟩ "Q" 1 0 true "default"
        .ok (queueOracle [])).trace ∧
    NativeCall.closeCall ∈ (KwResult.trace ⟨.ok (), ⟨[("default", 7)]⟩,
        [.openQueue (some MQOO_INPUT_AS_Q_DEF), .getCall MQGMO_NO_WAIT,
         .getCall MQGMO_NO_WAIT, .closeCall], []⟩) := by
  have h := queue_closed_on_every_exit ⟨[("default", 7)]⟩ "Q" "m" 1208 2 1 0 0 2
    true true "default" 7 (.mqmiError 2030) (queueOracle []) rfl
  refine ⟨rfl, h.1, h.2.1, h.2.2.1, ?_⟩
  exact h.2.2.2 _ (by rfl)

/-- C7: every queue operation invoked with an alias that has no stored
connection raises `ValueError` before any native call, leaving the state
unchanged and the native trace empty; with a connected alias the lookup
succeeds and the operation proceeds against that connection. -/
theorem unknown_alias_rejected_before_native_calls (st : MQState) (q m : String)
    (cc n nb t tb fuel : Nat) (c cb : Bool) (a : String) (o1 o2 : NatOutcome)
    (oracle : Nat → GetOutcome)
    (habs : alookup st.connections a = none) :
    put_message st q m cc a o1 o2 =
      ⟨.error (.valueError "No valid MQ alias provided or no default connection available."),
        st, [], []⟩ ∧
    get_messages st q n c t a o1 oracle =
      ⟨.error (.valueError "No valid MQ alias provided or no default connection available."),
        st, [], []⟩ ∧
    browse_messages st q nb tb cb a o1 oracle =
      ⟨.error (.valueError "No valid MQ alias provided or no default connection available."),
        st, [], []⟩ ∧
    clear_queue st q a o1 oracle fuel =
      some ⟨.error (.valueError "No valid MQ alias provided or no default connection available."),
        st, [], []⟩ ∧
    (∀ (st2 : MQState) (qh : Nat), alookup st2.connections a = some qh →
        _get_qmgr st2 a = .ok qh) := by
  have hg : _get_qmgr st a
      = .error (.valueError "No valid MQ alias provided or no default connection available.") := by
    simp [_get_qmgr, habs]
  refine ⟨?_, ?_, ?_, ?_, ?_⟩
  · simp [put_message, hg]
  · simp [get_messages, hg]
  · simp [browse_messages, hg]
  · simp [clear_queue, hg]
  · intro st2 qh hsome
    simp [_get_qmgr, hsome]

/-- Witness for C7 at a concrete input: the alias "other" has no stored
connection, so a put is rejected without native calls, while the stored
alias resolves. -/
theorem unknown_alias_rejected_before_native_calls_witness :
    alookup [("default", 7)] "other" = none ∧
    put_message ⟨[("default", 7)]⟩ "Q" "m" 1208 "other" .ok .ok =
      ⟨.error (.valueError "No valid MQ alias provided or no default connection available."),
        ⟨[("default", 7)]⟩, [], []⟩ ∧
    _get_qmgr ⟨[("default", 7)]⟩ "other" =
      .error (.valueError "No valid MQ alias provided or no default connection available.") ∧
    alookup [("default", 7)] "default" = some 7 := by
  have h := unknown_alias_rejected_before_native_calls ⟨[("default", 7)]⟩ "Q" "m"
    1208 1 1 0 0 1 true true "other" .ok .ok (queueOracle []) rfl
  exact ⟨rfl, h.1, by rfl, rfl⟩

/-- C8: on a connected alias, `Get MQ Messages` over a queue holding
`msgs` returns a list exactly when `message_amount` messages could be
retrieved; with fewer available it raises `AssertionError` naming the
expected and received counts, the messages already retrieved are not
returned (the result is the error) and nothing is put back (its trace
holds the open, the destructive gets and the close, and no put call). -/
theorem get_messages_exact_count_or_assertion (st : MQState) (q : String)
    (amount t : Nat) (c : Bool) (a : String) (qh : Nat)
    (msgs : List (List Nat))
    (hconn : alookup st.connections a = some qh) :
    ((∃ l, (get_messages st q amount c t a .ok (queueOracle msgs)).result = .ok l)
        ↔ amount ≤ msgs.length) ∧
    (msgs.length < amount →
      (get_messages st q amount c t a .ok (queueOracle msgs)).result
          = .error (.assertionError (expectedMsg amount msgs.length)) ∧
      (get_messages st q amount c t a .ok (queueOracle msgs)).trace
          = [.openQueue none] ++ List.replicate (msgs.length + 1) (.getCall (getGmo c))
              ++ [.closeCall] ∧
      NativeCall.putCall ∉ (get_messages st q amount c t a .ok (queueOracle msgs)).trace) := by
  have hg : _get_qmgr st a = .ok qh := by simp [_get_qmgr, hconn]
  have hshort : msgs.length < amount →
      get_messages st q amount c t a .ok (queueOracle msgs) =
        ⟨.error (.assertionError (expectedMsg amount msgs.length)), st,
          [.openQueue none] ++ List.replicate (msgs.length + 1) (.getCall (getGmo c))
            ++ [.closeCall], []⟩ := by
    intro hlt
    simp only [get_messages, hg]
    rw [getLoop_short msgs (getGmo c) amount 0 [] [] (by simpa using hlt)]
    dsimp only
    rw [List.drop_zero]
    have hne : (msgs.map decodeMessage).length ≠ amount := by
      simp only [List.length_map]
      omega
    simp [hne]
    omega
  refine ⟨⟨?_, ?_⟩, ?_⟩
  · rintro ⟨l, hl⟩
    by_contra hgt
    push_neg at hgt
    rw [hshort hgt] at hl
    exact Except.noConfusion hl
  · intro hle
    refine ⟨(msgs.take amount).map decodeMessage, ?_⟩
    simp only [get_messages, hg]
    rw [getLoop_full msgs (getGmo c) amount 0 [] [] (by simpa using hle)]
    simp [List.length_take, Nat.min_eq_left hle]
  · intro hlt
    rw [hshort hlt]
    refine ⟨rfl, rfl, ?_⟩
    simp [List.mem_replicate]

/-- Witness for C8 at a concrete input: a connected alias and a queue
with one message when two are requested. -/
theorem get_messages_exact_count_or_assertion_witness :
    alookup [("default", 7)] "default" = some 7 ∧
    (1 : Nat) < 2 ∧
    (get_messages ⟨[("default", 7)]⟩ "Q" 2 true 0 "default"
        .ok (queueOracle [[72]])).result
      = .error (.assertionError (expectedMsg 2 1)) ∧
    ¬ (∃ l, (get_messages ⟨[("default", 7)]⟩ "Q" 2 true 0 "default"
        .ok (queueOracle [[72]])).result = .ok l) := by
  have h := get_messages_exact_count_or_assertion ⟨[("default", 7)]⟩ "Q" 2 0 true
    "default" 7 [[72]] rfl
  refine ⟨rfl, by decide, (h.2 (by decide)).1, ?_⟩
  intro hex
  have := h.1.mp hex
  simp at this

/-- C9: on a connected alias, when the queue holds fewer messages than
`max_messages`, `Browse MQ Messages` does not raise: it returns every
message decoded (a list of length at most `max_messages`, as any
successful browse does); the queue is opened in browse mode
(`MQOO_BROWSE`) and each `get` carries `MQGMO_BROWSE_FIRST` on the first
iteration and `MQGMO_BROWSE_NEXT` afterwards, the non-destructive browse
options. -/
theorem browse_messages_browse_mode_no_raise (st : MQState) (q : String)
    (maxm t : Nat) (c : Bool) (a : String) (qh : Nat)
    (msgs : List (List Nat)) (oracle : Nat → GetOutcome)
    (hconn : alookup st.connections a = some qh)
    (hlt : msgs.length < maxm) :
    (browse_messages st q maxm t c a .ok (queueOracle msgs)).result
        = .ok (msgs.map decodeMessage) ∧
    (∀ l, (browse_messages st q maxm t c a .ok oracle).result = .ok l →
        l.length ≤ maxm) ∧
    (browse_messages st q maxm t c a .ok (queueOracle msgs)).trace
        = [.openQueue (some MQOO_BROWSE)]
            ++ (List.range (msgs.length + 1)).map (fun i => .getCall (browseGmo c i))
            ++ [.closeCall] ∧
    (∀ i, browseGmo c i &&& (MQGMO_BROWSE_FIRST ||| MQGMO_BROWSE_NEXT)
        = if i = 0 then MQGMO_BROWSE_FIRST else MQGMO_BROWSE_NEXT) := by
  have hg : _get_qmgr st a = .ok qh := by simp [_get_qmgr, hconn]
  have hrun : browse_messages st q maxm t c a .ok (queueOracle msgs) =
      ⟨.ok (msgs.map decodeMessage), st,
        [.openQueue (some MQOO_BROWSE)]
          ++ (List.range (msgs.length + 1)).map (fun i => .getCall (browseGmo c i))
          ++ [.closeCall], []⟩ := by
    simp only [browse_messages, hg]
    rw [browseLoop_short msgs c maxm 0 [] [] (by simpa using hlt)]
    simp
  refine ⟨by rw [hrun], ?_, by rw [hrun], ?_⟩
  · intro l hl
    simp only [browse_messages, hg] at hl
    rcases hlp : browseLoop oracle c maxm 0 [] [] with ⟨lm, tr, ex⟩
    rw [hlp] at hl
    have hs := (browseLoop_sizes oracle c maxm 0 [] []).1
    rw [hlp] at hs
    simp only [List.length_nil, Nat.zero_add] at hs
    cases ex
    · dsimp only at hl
      cases hl
      exact hs
    · dsimp only at hl
      cases hl
      exact hs
    · exact Except.noConfusion hl
  · intro i
    rcases i with _ | j <;> cases c <;>
      simp [browseGmo, MQGMO_WAIT, MQGMO_CONVERT, MQGMO_BROWSE_FIRST,
        MQGMO_BROWSE_NEXT] <;> decide

/-- Witness for C9 at a concrete input: a connected alias and a queue of
one message browsed with `max_messages = 3`. -/
theorem browse_messages_browse_mode_no_raise_witness :
    alookup [("default", 7)] "default" = some 7 ∧
    (1 : Nat) < 3 ∧
    (browse_messages ⟨[("default", 7)]⟩ "Q" 3 0 true "default"
        .ok (queueOracle [[72]])).result = .ok [['H']] ∧
    (browse_messages ⟨[("default", 7)]⟩ "Q" 3 0 true "default"
        .ok (queueOracle [[72]])).trace
      = [.openQueue (some MQOO_BROWSE), .getCall (browseGmo true 0),
         .getCall (browseGmo true 1), .closeCall] := by
  have h := browse_messages_browse_mode_no_raise ⟨[("default", 7)]⟩ "Q" 3 0 true
    "default" 7 [[72]] (queueOracle [[72]]) rfl (by decide)
  refine ⟨rfl, by decide, ?_, ?_⟩
  · rw [h.1]; simp only [Except.ok.injEq]; decide
  · rw [h.2.2.1]; decide

/-- C10: `Disconnect MQ` on an absent alias is a silent no-op; on a
present alias the entry is always removed, even when the native
disconnect raises (the keyword still returns normally), so after any
disconnect the alias is absent; `Disconnect All MQ Connections` empties
the mapping. -/
theorem disconnect_mq_removes_and_suppresses (st : MQState)
    (outs : String → NatOutcome) :
    (∀ a d, alookup st.connections a = none →
        disconnect_mq st a d = ⟨.ok (), st, [], []⟩) ∧
    (∀ a d, (disconnect_mq st a d).result = .ok () ∧
        alookup (disconnect_mq st a d).state.connections a = none) ∧
    (disconnect_all st outs).state.connections = [] := by
  refine ⟨?_, ?_, ?_⟩
  · intro a d habs
    have hb : (alookup st.connections a).isSome = false := by simp [habs]
    simp [disconnect_mq, hb]
  · intro a d
    refine ⟨disconnect_mq_result st a d, ?_⟩
    rw [disconnect_mq_state st a d]
    exact alookup_removeAlias st.connections a
  · have hgo : ∀ (ks : List String) (s : MQState),
        (∀ p ∈ s.connections, p.1 ∈ ks) →
        (disconnectAllGo outs ks s).1.connections = [] := by
      intro ks
      induction ks with
      | nil =>
        intro s hmem
        cases hc : s.connections with
        | nil => simp [disconnectAllGo, hc]
        | cons p rest =>
          exfalso
          have := hmem p (by rw [hc]; exact List.mem_cons_self p rest)
          simp at this
      | cons k ks ih =>
        intro s hmem
        simp only [disconnectAllGo]
        apply ih
        intro p hp
        rw [disconnect_mq_state] at hp
        have hpm : p ∈ s.connections := List.mem_of_mem_filter hp
        have hne : ¬(p.1 == k) = true := by
          have := List.of_mem_filter hp
          simpa using this
        have := hmem p hpm
        simp only [List.mem_cons] at this
        rcases this with h1 | h1
        · exact absurd (by simp [h1]) hne
        · exact h1
    simp only [disconnect_all]
    apply hgo
    intro p hp
    exact List.mem_map_of_mem Prod.fst hp

/-- Witness for C10 at a concrete input: an absent alias is a no-op, a
present alias is removed even when the native disconnect raises, and
disconnect-all empties a two-entry mapping. -/
theorem disconnect_mq_removes_and_suppresses_witness :
    alookup [("default", 7)] "other" = none ∧
    disconnect_mq ⟨[("default", 7)]⟩ "other" .ok
      = ⟨.ok (), ⟨[("default", 7)]⟩, [], []⟩ ∧
    alookup (disconnect_mq ⟨[("default", 7)]⟩ "default"
        (.mqmiError 2009)).state.connections "default" = none ∧
    (disconnect_all ⟨[("a", 1), ("b", 2)]⟩ (fun _ => .ok)).state.connections = [] := by
  have h := disconnect_mq_removes_and_suppresses ⟨[("default", 7)]⟩ (fun _ => .ok)
  have h2 := disconnect_mq_removes_and_suppresses ⟨[("a", 1), ("b", 2)]⟩ (fun _ => .ok)
  exact ⟨rfl, h.1 "other" .ok rfl, (h.2.1 "default" (.mqmiError 2009)).2, h2.2.2⟩
